import Mathlib

/-!
Verification of the Parallel Request Orchestration Core of the
research-powerpack MCP server, as a shallow embedding in Lean 4.

Each definition below mirrors one TypeScript function of the repository
(file and symbol named in its doc comment).  Asynchronous effects (HTTP
fetches, handler invocations, Zod validation, random jitter samples) are
passed in as explicit function arguments, so every definition is a total
computable Lean function over those oracles.
-/

namespace Powerpack

/-- `ErrorCode` constants from `src/utils/errors.ts`. -/
inductive ErrorCode where
  | RATE_LIMITED
  | TIMEOUT
  | NETWORK_ERROR
  | SERVICE_UNAVAILABLE
  | AUTH_ERROR
  | INVALID_INPUT
  | NOT_FOUND
  | QUOTA_EXCEEDED
  | INTERNAL_ERROR
  | PARSE_ERROR
  | UNKNOWN_ERROR
  deriving DecidableEq, Repr

/-- `StructuredError` from `src/utils/errors.ts`: code, message, retryable
flag, optional HTTP status and optional cause string. -/
structure StructuredError where
  code : ErrorCode
  message : String
  retryable : Bool
  statusCode : Option Nat := none
  cause : Option String := none
  deriving DecidableEq, Repr

/-- `p` is a prefix of `l` (character lists). -/
def charStartsWith : List Char → List Char → Bool
  | [], _ => true
  | _ :: _, [] => false
  | p :: ps, c :: cs => p == c && charStartsWith ps cs

/-- `pat` occurs inside `l` (character lists). -/
def charContains : List Char → List Char → Bool
  | [], pat => pat.isEmpty
  | h :: t, pat => charStartsWith pat (h :: t) || charContains t pat

/-- Substring containment test, modelling JavaScript
`String.prototype.includes`. -/
def containsStr (s pat : String) : Bool :=
  charContains s.toList pat.toList

/-- ASCII lower-casing, modelling `String.prototype.toLowerCase` on the
ASCII messages the classifier inspects. -/
def lowerStr (s : String) : String :=
  String.mk (s.toList.map Char.toLower)

/-- `classifyHttpError` from `src/utils/errors.ts` (lines 377-407): the
status-code dispatch table.  The TypeScript `switch` is a first-match
chain, rendered here as nested conditionals. -/
def classifyHttpError (status : Nat) (message : String) : StructuredError :=
  if status = 400 then
    { code := .INVALID_INPUT, message := "Bad request", retryable := false, statusCode := some status }
  else if status = 401 then
    { code := .AUTH_ERROR, message := "Invalid API key", retryable := false, statusCode := some status }
  else if status = 403 then
    { code := .QUOTA_EXCEEDED, message := "Access forbidden or quota exceeded", retryable := false, statusCode := some status }
  else if status = 404 then
    { code := .NOT_FOUND, message := "Resource not found", retryable := false, statusCode := some status }
  else if status = 408 then
    { code := .TIMEOUT, message := "Request timeout", retryable := true, statusCode := some status }
  else if status = 429 then
    { code := .RATE_LIMITED, message := "Rate limit exceeded", retryable := true, statusCode := some status }
  else if status = 500 then
    { code := .INTERNAL_ERROR, message := "Server error", retryable := true, statusCode := some status }
  else if status = 502 then
    { code := .SERVICE_UNAVAILABLE, message := "Bad gateway", retryable := true, statusCode := some status }
  else if status = 503 then
    { code := .SERVICE_UNAVAILABLE, message := "Service unavailable", retryable := true, statusCode := some status }
  else if status = 504 then
    { code := .TIMEOUT, message := "Gateway timeout", retryable := true, statusCode := some status }
  else if status = 510 then
    { code := .SERVICE_UNAVAILABLE, message := "Request canceled", retryable := true, statusCode := some status }
  else if 500 ≤ status then
    { code := .SERVICE_UNAVAILABLE, message := "Server error: " ++ toString status, retryable := true, statusCode := some status }
  else
    { code := .UNKNOWN_ERROR, message := "HTTP " ++ toString status ++ ": " ++ message, retryable := false, statusCode := some status }

/-- The shape `classifyError` reads off an arbitrary thrown JavaScript
value (`src/utils/errors.ts`, lines 280-372): `null`-ness, DOMException
abort, `message`, `response.status`, `status`, `code`, `name`, `cause`,
and the `String(error)` rendering used when `message` is absent.
Absent numeric fields are `none`; the JavaScript falsiness of status `0`
is handled in `statusCodeOf`. -/
structure JsError where
  isNull : Bool := false
  isAbortDOMException : Bool := false
  message : Option String := none
  responseStatus : Option Nat := none
  status : Option Nat := none
  code : Option String := none
  name : Option String := none
  cause : Option String := none
  stringRep : String := ""
  deriving DecidableEq, Repr

/-- `err.response?.status || err.status` with JavaScript falsiness:
a missing or zero left operand falls through to the right; the result `0`
denotes "no usable status". -/
def JsError.statusCodeOf (e : JsError) : Nat :=
  let l := e.responseStatus.getD 0
  if l ≠ 0 then l else e.status.getD 0

/-- `err.message || String(error)`. -/
def JsError.messageOf (e : JsError) : String :=
  match e.message with
  | some m => if m ≠ "" then m else e.stringRep
  | none => e.stringRep

/-- `classifyError` from `src/utils/errors.ts` (lines 280-372): the
prioritized match turning any thrown value into a `StructuredError`. -/
def classifyError (e : JsError) : StructuredError :=
  if e.isNull then
    { code := .UNKNOWN_ERROR, message := "An unknown error occurred", retryable := false }
  else if e.isAbortDOMException then
    { code := .TIMEOUT, message := "Request timed out", retryable := true }
  else
    let message := e.messageOf
    let statusCode := e.statusCodeOf
    if e.code = some "ECONNREFUSED" ∨ e.code = some "ENOTFOUND" ∨ e.code = some "ECONNRESET" then
      { code := .NETWORK_ERROR, message := "Network error: " ++ (e.code.getD ""), retryable := true, cause := some message }
    else if e.code = some "ECONNABORTED" ∨ e.code = some "ETIMEDOUT" ∨ e.name = some "AbortError"
        ∨ containsStr (lowerStr message) "timeout" ∨ containsStr (lowerStr message) "timed out" then
      { code := .TIMEOUT, message := "Request timed out", retryable := true, cause := some message }
    else if statusCode ≠ 0 then
      classifyHttpError statusCode message
    else if containsStr message "API_KEY" ∨ containsStr message "api_key" ∨ containsStr message "Invalid API" then
      { code := .AUTH_ERROR, message := "API key missing or invalid", retryable := false, cause := some message }
    else if containsStr message "JSON" ∨ containsStr message "parse" ∨ containsStr message "Unexpected token" then
      { code := .PARSE_ERROR, message := "Failed to parse response", retryable := false, cause := some message }
    else
      { code := .UNKNOWN_ERROR, message := message.take 500, retryable := false, cause := e.cause }

/-- The set of codes the spec calls retryable kinds: RateLimited, Timeout,
Network, ServiceUnavailable, Internal. -/
def retryableKinds (c : ErrorCode) : Bool :=
  match c with
  | .RATE_LIMITED | .TIMEOUT | .NETWORK_ERROR | .SERVICE_UNAVAILABLE | .INTERNAL_ERROR => true
  | _ => false

/-- `calculateTokenAllocation` from `src/tools/utils.ts` (lines 69-72):
`count <= 0` returns the whole budget, otherwise `Math.floor(budget / count)`
(floor division, `Int.fdiv`). -/
def calculateTokenAllocation (count budget : Int) : Int :=
  if count ≤ 0 then budget else Int.fdiv budget count

/-- `calculateTokenAllocation` from `src/tools/research.ts` (lines 30-33),
an inlined copy with the fixed budget `TOTAL_TOKEN_BUDGET = 32000`. -/
def researchTokenAllocation (questionCount : Int) : Int :=
  if questionCount ≤ 0 then 32000 else Int.fdiv 32000 questionCount

/-- `calculateBackoff` from `src/utils/errors.ts` (lines 416-420):
`base * 2^attempt` plus a jitter `Math.random() * 0.3` of that value,
clamped to `maxDelayMs`.  The `Math.random()` sample is the explicit
argument `rand ∈ [0, 1)`. -/
def calculateBackoff (baseDelayMs maxDelayMs : ℚ) (attempt : ℕ) (rand : ℚ) : ℚ :=
  let exponentialDelay := baseDelayMs * 2 ^ attempt
  let jitter := rand * (3 / 10) * exponentialDelay
  min (exponentialDelay + jitter) maxDelayMs

/-- `calculateDelay` from `src/utils/retry.ts` (lines 22-25):
`min(initial * multiplier^attempt, maxDelay)`, with no jitter. -/
def calculateDelay (initialDelayMs maxDelayMs multiplier : ℚ) (attempt : ℕ) : ℚ :=
  min (initialDelayMs * multiplier ^ attempt) maxDelayMs

/-! ## Retry engine (`withRetry`, `src/utils/errors.ts` lines 445-485)

The async operation is the oracle `fn : ℕ → Except JsError α`, giving the
outcome of each attempt; `rand : ℕ → ℚ` gives the jitter sample of each
backoff.  The result records the delays slept, so retry scheduling is
part of the observable behaviour.  The abort-during-sleep path (sleep
rejecting) is not modelled: sleeps always complete. -/

/-- Result of `withRetry`: TypeScript
`{success: true, data} | {success: false, error, attempts}`, extended
with the trace of slept delays. -/
inductive RetryOutcome (α : Type) where
  | success (data : α) (sleeps : List ℚ)
  | failure (error : StructuredError) (attempts : Nat) (sleeps : List ℚ)
  deriving DecidableEq

/-- The attempt loop of `withRetry` (`for attempt = 0..maxRetries`). -/
def withRetryGo (fn : Nat → Except JsError α) (maxRetries : Nat) (base maxD : ℚ)
    (rand : Nat → ℚ) (attempt : Nat) (sleeps : List ℚ) : RetryOutcome α :=
  match fn attempt with
  | .ok v => .success v sleeps
  | .error e =>
    let lastError := classifyError e
    if lastError.retryable = false then
      .failure lastError (attempt + 1) sleeps
    else if _h : maxRetries ≤ attempt then
      .failure lastError (attempt + 1) sleeps
    else
      withRetryGo fn maxRetries base maxD rand (attempt + 1)
        (sleeps ++ [calculateBackoff base maxD attempt (rand attempt)])
termination_by maxRetries - attempt

/-- `withRetry` from `src/utils/errors.ts` (lines 445-485).
`maxRetries` is the number of retries, so up to `maxRetries + 1` attempts. -/
def withRetry (fn : Nat → Except JsError α) (maxRetries : Nat) (base maxD : ℚ)
    (rand : Nat → ℚ) : RetryOutcome α :=
  withRetryGo fn maxRetries base maxD rand 0 []

/-! ## Retry engine (`retryWithBackoff`, `src/utils/retry.ts` lines 46-103)

Here `maxRetries` is the total number of attempts; the classification is
the `shouldRetry` predicate over the raised `Error` (default: the 429 /
rate-limit message heuristic `is429`). -/

/-- `RetryResult<T>` from `src/utils/retry.ts` (lines 31-37). -/
structure RetryResult (α : Type) where
  success : Bool
  data : Option α
  error : Option JsError
  attempts : Nat
  totalDelayMs : ℚ
  deriving DecidableEq

/-- The default `shouldRetry` of `retryWithBackoff`: message contains
`429`, `rate limit` or `too many requests` (case-insensitive for the
latter two). -/
def is429 (e : JsError) : Bool :=
  containsStr e.messageOf "429"
    || containsStr (lowerStr e.messageOf) "rate limit"
    || containsStr (lowerStr e.messageOf) "too many requests"

/-- The attempt loop of `retryWithBackoff`
(`for attempt = 0; attempt < maxRetries`). -/
def retryWithBackoffGo (fn : Nat → Except JsError α) (maxRetries : Nat)
    (base maxD mult : ℚ) (shouldRetry : JsError → Bool)
    (attempt : Nat) (total : ℚ) (lastErr : Option JsError) : RetryResult α :=
  if _h : attempt < maxRetries then
    match fn attempt with
    | .ok v =>
      { success := true, data := some v, error := none, attempts := attempt + 1, totalDelayMs := total }
    | .error e =>
      if shouldRetry e = false then
        { success := false, data := none, error := some e, attempts := attempt + 1, totalDelayMs := total }
      else if attempt + 1 < maxRetries then
        retryWithBackoffGo fn maxRetries base maxD mult shouldRetry (attempt + 1)
          (total + calculateDelay base maxD mult attempt) (some e)
      else
        { success := false, data := none, error := some e, attempts := maxRetries, totalDelayMs := total }
  else
    { success := false, data := none, error := lastErr, attempts := maxRetries, totalDelayMs := total }
termination_by maxRetries - attempt

/-- `retryWithBackoff` from `src/utils/retry.ts` (lines 46-103). -/
def retryWithBackoff (fn : Nat → Except JsError α) (maxRetries : Nat)
    (base maxD mult : ℚ) (shouldRetry : JsError → Bool) : RetryResult α :=
  retryWithBackoffGo fn maxRetries base maxD mult shouldRetry 0 0 none

/-! ## Tool dispatcher (`executeTool`, `src/tools/registry.ts` lines 198-273) -/

/-- Capability tags (keys of `Capabilities` from `src/config/index.ts`),
as used by the registry entries and `getToolCapabilities`. -/
inductive CapKey where
  | search
  | reddit
  | scraping
  | deepResearch
  | llmExtraction
  deriving DecidableEq, Repr

/-- Modelled from the spec: `getMissingEnvMessage` lives in
`src/config/index.ts`, which is not among the provided sources; per the
spec it returns a human-readable "missing environment variable" message
keyed by the capability tag (env mapping: `SEARCH_API_KEY → search`,
`REDDIT_CLIENT_ID ∧ REDDIT_CLIENT_SECRET → reddit`,
`SCRAPER_API_KEY → scraping`, `LLM_API_KEY → deep_research`). -/
def getMissingEnvMessage (k : CapKey) : String :=
  match k with
  | .search => "Missing environment variable: SEARCH_API_KEY is required for this tool"
  | .reddit => "Missing environment variables: REDDIT_CLIENT_ID and REDDIT_CLIENT_SECRET are required for this tool"
  | .scraping => "Missing environment variable: SCRAPER_API_KEY is required for this tool"
  | .deepResearch => "Missing environment variable: LLM_API_KEY is required for deep research"
  | .llmExtraction => "Missing environment variable: LLM_API_KEY is required for AI extraction"

/-- `CallToolResult` from `src/tools/registry.ts` (lines 30-34); the
single text content item is modelled as one string, and the optional
`isError` field as `Option Bool` (`none` = field omitted). -/
structure CallToolResult where
  content : String
  isError : Option Bool := none
  deriving DecidableEq, Repr

/-- Modelled from the spec: `createToolErrorFromStructured` lives in
`src/utils/errors.ts` below the provided extract; per the spec every
failure path yields a Markdown body carrying the error kind and message,
flagged `isError = true`. -/
def createToolErrorFromStructured (e : StructuredError) : CallToolResult :=
  { content := "# ❌ Error\n\n**" ++ e.message ++ "**", isError := some true }

/-- The registry metadata of `toolRegistry` (`src/tools/registry.ts`
lines 130-177): per tool name, its required capability and, when the
entry declares `transformResponse`, the sentinel substring that
`transformResponse` checks with `result.includes(...)`. -/
def toolMeta (name : String) : Option (Option CapKey × Option String) :=
  match name with
  | "search_reddit" => some (some .search, none)
  | "get_reddit_post" => some (some .reddit, none)
  | "deep_research" => some (some .deepResearch, some "# ❌ Error")
  | "scrape_links" => some (some .scraping, some "# ❌ Scraping Failed")
  | "web_search" => some (some .search, some "# ❌ web_search")
  | _ => none

/-- Outcome of Zod `schema.parse(args)` in step 3 of `executeTool`:
success, a `ZodError` (already rendered one issue per line), or a
non-Zod exception. -/
inductive ValidationOutcome (α : Type) where
  | ok (validated : α)
  | zodError (issues : String)
  | thrown (e : JsError)

/-- Oracle for the per-tool Zod schema and handler, which are external
async effects: the validation outcome and the handler outcome for the
given arguments. -/
structure ToolBehaviour (α : Type) where
  validate : α → ValidationOutcome α
  handler : α → Except JsError String

/-- Result of one dispatch: either an `McpError` propagated to the
protocol layer (`.threw`) or a structured `CallToolResult`. -/
inductive ExecOutcome where
  | threw (message : String)
  | result (r : CallToolResult)
  deriving DecidableEq

/-- Dispatch trace: the outcome plus whether the tool handler was
invoked (true exactly when control reached step 4). -/
structure ExecTrace where
  outcome : ExecOutcome
  handlerInvoked : Bool
  deriving DecidableEq

/-- Steps 3-5 of `executeTool`: Zod validation, handler invocation with
its catch, and the optional `transformResponse`. -/
def executeToolSteps3to5 (bh : String → ToolBehaviour α) (name : String)
    (args : α) (sentinel : Option String) : ExecTrace :=
  match (bh name).validate args with
  | .zodError issues =>
    { outcome := .result { content := "# ❌ Validation Error\n\n" ++ issues, isError := some true },
      handlerInvoked := false }
  | .thrown e =>
    { outcome := .result (createToolErrorFromStructured (classifyError e)),
      handlerInvoked := false }
  | .ok validated =>
    match (bh name).handler validated with
    | .error e =>
      { outcome := .result (createToolErrorFromStructured (classifyError e)),
        handlerInvoked := true }
    | .ok result =>
      match sentinel with
      | some s =>
        { outcome := .result { content := result, isError := some (containsStr result s) },
          handlerInvoked := true }
      | none =>
        { outcome := .result { content := result, isError := none },
          handlerInvoked := true }

/-- `executeTool` from `src/tools/registry.ts` (lines 198-273):
lookup → capability gate → Zod validation → handler → response
transform.  None of the five registered tools declares `postValidate`,
so step 3.5 is a no-op.  An unknown name throws `McpError` (modelled as
`.threw`), which the `CallToolRequestSchema` handler in `src/index.ts`
(lines 178-199) re-throws to the client. -/
def executeTool (bh : String → ToolBehaviour α) (caps : CapKey → Bool)
    (name : String) (args : α) : ExecTrace :=
  match toolMeta name with
  | none =>
    { outcome := .threw ("Method not found: " ++ name), handlerInvoked := false }
  | some (capability, sentinel) =>
    match capability with
    | some k =>
      if caps k = false then
        { outcome := .result { content := getMissingEnvMessage k, isError := some true },
          handlerInvoked := false }
      else
        executeToolSteps3to5 bh name args sentinel
    | none => executeToolSteps3to5 bh name args sentinel

/-! ## Scraper client (`ScraperClient`, `src/clients/scraper.ts`)

The network is the oracle `fetches : ℕ → FetchOutcome`, giving the
outcome of the fetch made on each retry attempt.  `scrape` also returns
the number of fetches performed, so "no network attempt was made" is
observable.  URL parsing (`new URL(url)`) is a platform call, passed in
as the boolean `urlValid`. -/

/-- Outcome of one `fetchWithTimeout` call inside `scrape`: an HTTP
response with its status and body text (a body-read failure is already
folded into the body string by the inner try of lines 104-109), or a
thrown value (network error, abort). -/
inductive FetchOutcome where
  | ok (status : Nat) (content : String)
  | thrown (e : JsError)

/-- `ScrapeResponse` from `src/clients/scraper.ts` (lines 23-29); the
`headers` field, set only on the 2xx path and never read by the
fallback or batch logic, is omitted. -/
structure ScrapeResponse where
  content : String
  statusCode : Nat
  credits : Nat
  error : Option StructuredError := none
  deriving DecidableEq, Repr

/-- `mode` parameter of a scrape request. -/
inductive ScrapeMode where
  | basic
  | javascript
  deriving DecidableEq, Repr

/-- `lastError.statusCode || 500` with JavaScript falsiness of `0`. -/
def statusOr500 (e : Option StructuredError) : Nat :=
  match e with
  | some err => match err.statusCode with
    | some s => if s ≠ 0 then s else 500
    | none => 500
  | none => 500

/-- The `classifyError({ status, message: content })` call of line 166:
an object whose `String(error)` rendering is `[object Object]`. -/
def statusObjectError (st : Nat) (content : String) : JsError :=
  { message := some content, status := some st, stringRep := "[object Object]" }

/-- The "all retries exhausted" return of `scrape` (lines 205-211). -/
def scrapeExhausted (maxRetries : Nat) (lastError : Option StructuredError) : ScrapeResponse :=
  { content := "Error: Failed after " ++ toString maxRetries ++ " attempts. "
      ++ (match lastError with | some l => l.message | none => "Unknown error"),
    statusCode := statusOr500 lastError,
    credits := 0,
    error := some (lastError.getD
      { code := .UNKNOWN_ERROR, message := "All retries exhausted", retryable := false }) }

/-- The retry loop of `scrape` (lines 93-203).  `used` counts fetches
performed. -/
def scrapeGo (fetches : Nat → FetchOutcome) (maxRetries credits : Nat)
    (attempt : Nat) (lastError : Option StructuredError) (used : Nat) : ScrapeResponse × Nat :=
  if _h : attempt < maxRetries then
    match fetches attempt with
    | .ok st content =>
      if 200 ≤ st ∧ st < 300 then
        ({ content := content, statusCode := st, credits := credits }, used + 1)
      else if st = 404 then
        ({ content := "404 - Page not found", statusCode := 404, credits := credits }, used + 1)
      else if st = 400 ∨ st = 401 ∨ st = 403 then
        let errorMsg := if st = 401 then "No credits remaining or subscription suspended"
          else "Request failed with status " ++ toString st
        ({ content := "Error: " ++ errorMsg, statusCode := st, credits := 0,
           error := some { code := if st = 401 then .AUTH_ERROR else .INVALID_INPUT,
                           message := errorMsg, retryable := false, statusCode := some st } }, used + 1)
      else if (st = 429 ∨ st = 502 ∨ st = 503 ∨ st = 504 ∨ st = 510) ∧ attempt + 1 < maxRetries then
        scrapeGo fetches maxRetries credits (attempt + 1)
          (some { code := if st = 429 then .RATE_LIMITED else .SERVICE_UNAVAILABLE,
                  message := "Server returned " ++ toString st, retryable := true,
                  statusCode := some st }) (used + 1)
      else
        let lastE := classifyError (statusObjectError st content)
        if attempt + 1 < maxRetries ∧ lastE.retryable = true then
          scrapeGo fetches maxRetries credits (attempt + 1) (some lastE) (used + 1)
        else
          ({ content := "Error: " ++ lastE.message, statusCode := st, credits := 0,
             error := some lastE }, used + 1)
    | .thrown e =>
      let lastE := classifyError e
      if lastE.retryable = false then
        ({ content := "Error: " ++ lastE.message, statusCode := statusOr500 (some lastE),
           credits := 0, error := some lastE }, used + 1)
      else if attempt + 1 < maxRetries then
        scrapeGo fetches maxRetries credits (attempt + 1) (some lastE) (used + 1)
      else
        (scrapeExhausted maxRetries (some lastE), used + 1)
  else
    (scrapeExhausted maxRetries lastError, used)
termination_by maxRetries - attempt

/-- `ScraperClient.scrape` from `src/clients/scraper.ts` (lines 60-212).
Returns the response together with the number of fetches performed. -/
def scrape (url : String) (urlValid : Bool) (mode : ScrapeMode)
    (fetches : Nat → FetchOutcome) (maxRetries : Nat) : ScrapeResponse × Nat :=
  let credits := if mode = ScrapeMode.javascript then 5 else 1
  if urlValid = false then
    ({ content := "Invalid URL: " ++ url, statusCode := 400, credits := 0,
       error := some { code := .INVALID_INPUT, message := "Invalid URL: " ++ url,
                       retryable := false } }, 0)
  else
    scrapeGo fetches maxRetries credits 0 none 0

/-- The fallback ladder of `scrapeWithFallback` (lines 228-232): mode
index, scrape mode and description.  The third entry adds the US geo
code, which only changes the request URL. -/
def ladder : List (Nat × ScrapeMode × String) :=
  [(0, ScrapeMode.basic, "basic mode"),
   (1, ScrapeMode.javascript, "javascript rendering"),
   (2, ScrapeMode.javascript, "javascript + US geo-targeting")]

/-- The non-retryable-error test of line 262:
`result.error && !result.error.retryable`. -/
def nonRetryableError (r : ScrapeResponse) : Bool :=
  match r.error with
  | some err => !err.retryable
  | none => false

/-- `${result.error?.message || result.statusCode}` of line 268. -/
def failureReason (r : ScrapeResponse) : String :=
  match r.error with
  | some err => if err.message ≠ "" then err.message else toString r.statusCode
  | none => toString r.statusCode

/-- `lastResult?.statusCode || 500` of line 276. -/
def lastStatusOr500 (r : Option ScrapeResponse) : Nat :=
  match r with
  | some res => if res.statusCode ≠ 0 then res.statusCode else 500
  | none => 500

/-- The mode loop of `scrapeWithFallback` (lines 237-283).  `fetchesFor
i` is the fetch oracle of ladder mode `i`; the second result component
counts the ladder modes actually tried. -/
def fallbackGo (url : String) (urlValid : Bool) (fetchesFor : Nat → Nat → FetchOutcome)
    (maxRetries : Nat) :
    List (Nat × ScrapeMode × String) → Option ScrapeResponse → List String → Nat →
    ScrapeResponse × Nat
  | [], lastResult, attemptResults, tried =>
    ({ content := "Error: Failed after 3 fallback modes: "
         ++ String.intercalate "; " attemptResults,
       statusCode := lastStatusOr500 lastResult, credits := 0,
       error := some { code := .SERVICE_UNAVAILABLE,
                       message := "Failed after 3 fallback modes: "
                         ++ String.intercalate "; " attemptResults,
                       retryable := false } }, tried)
  | (idx, mode, description) :: rest, _, attemptResults, tried =>
    let result := (scrape url urlValid mode (fetchesFor idx) maxRetries).1
    if (200 ≤ result.statusCode ∧ result.statusCode < 300) ∧ result.error = none then
      (result, tried + 1)
    else if result.statusCode = 404 then
      (result, tried + 1)
    else if nonRetryableError result = true then
      (result, tried + 1)
    else
      fallbackGo url urlValid fetchesFor maxRetries rest (some result)
        (attemptResults ++ [description ++ ": " ++ failureReason result]) (tried + 1)

/-- `ScraperClient.scrapeWithFallback` from `src/clients/scraper.ts`
(lines 227-284): basic → javascript → javascript + geo. -/
def scrapeWithFallback (url : String) (urlValid : Bool)
    (fetchesFor : Nat → Nat → FetchOutcome) (maxRetries : Nat) : ScrapeResponse × Nat :=
  fallbackGo url urlValid fetchesFor maxRetries ladder none [] 0

/-! ## Chunked fan-out executors

`ScraperClient.batchScrape` (`src/clients/scraper.ts` lines 307-374) and
`processMultipleWithLLM` (`src/services/llm-processor.ts` lines 240-272)
share one scheduling shape: the inputs are sliced into consecutive
chunks of size `K` (`SCRAPER.BATCH_SIZE` resp. `concurrency`); each
chunk is started together and awaited as a whole
(`Promise.allSettled` / `Promise.all`); a fixed 500 ms pause separates
chunks.  The timing model below makes instants explicit: task `i` has an
abstract duration `d i`; all tasks of a chunk start when the chunk
starts, and the next chunk starts once every task of the current chunk
has finished and the pause has elapsed. -/

/-- Largest duration inside chunk `b` (the chunk await time). -/
def chunkMax (d : Nat → Nat) (K N b : Nat) : Nat :=
  (Finset.Ico (b * K) (min ((b + 1) * K) N)).sup d

/-- Start instant of chunk `b`. -/
def chunkStart (d : Nat → Nat) (K N pause : Nat) : Nat → Nat
  | 0 => 0
  | b + 1 => chunkStart d K N pause b + chunkMax d K N b + pause

/-- Start instant of task `i` (the start of its chunk). -/
def taskStart (d : Nat → Nat) (K N pause i : Nat) : Nat :=
  chunkStart d K N pause (i / K)

/-- Finish instant of task `i`. -/
def taskFinish (d : Nat → Nat) (K N pause i : Nat) : Nat :=
  taskStart d K N pause i + d i

/-- Number of started-but-not-finished tasks at instant `t`. -/
def inFlight (d : Nat → Nat) (K N pause t : Nat) : Nat :=
  ((Finset.range N).filter
    (fun i => taskStart d K N pause i ≤ t ∧ t < taskFinish d K N pause i)).card

/-- The sliding-window property the claim asserts: whenever a task
finishes while some input has not started yet, a task starts at that
very instant. -/
def WorkConserving (d : Nat → Nat) (K N pause : Nat) : Prop :=
  ∀ i < N, (∃ j < N, taskFinish d K N pause i < taskStart d K N pause j) →
    ∃ j < N, taskStart d K N pause j = taskFinish d K N pause i

/-- Durations of the three-task counterexample run: 1, 5, 1 time units. -/
def dEx : Nat → Nat := fun i => if i = 1 then 5 else 1

/-! ## Reddit comment extraction (`RedditClient.getPost`,
`src/lib/reddit.ts` lines 96-119) -/

/-- One node of the Reddit comment listing as the extractor reads it:
`kind` (`t1` for comments), `data.author` (`none` for a missing author;
the empty string is also skipped by the `!c.data?.author` falsiness
test), `data.body` (missing body is the empty string, as in
`c.data.body || empty`), `data.score` (a missing score sorts as `0` via
`|| 0`), and `data.replies?.data?.children` (a missing or empty
`replies` both yield no recursion, modelled as `[]`). -/
inductive RNode where
  | mk (kind : String) (author : Option String) (body : String) (score : Int)
       (replies : List RNode)

def RNode.kind : RNode → String
  | .mk k _ _ _ _ => k

def RNode.author : RNode → Option String
  | .mk _ a _ _ _ => a

def RNode.body : RNode → String
  | .mk _ _ b _ _ => b

def RNode.score : RNode → Int
  | .mk _ _ _ s _ => s

def RNode.replies : RNode → List RNode
  | .mk _ _ _ _ r => r

/-- `Comment` from `src/lib/reddit.ts` (lines 16-22). -/
structure Comment where
  author : String
  body : String
  score : Int
  depth : Nat
  isOP : Bool
  deriving DecidableEq, Repr

/-- Negation of the skip test of line 103:
`c.kind, c.data.author present and not deleted` (line 103). -/
def validNode (c : RNode) : Bool :=
  c.kind == "t1" &&
    (match c.author with
     | some a => a != "" && a != "[deleted]"
     | none => false)

/-- The comment pushed at lines 104-110. -/
def mkComment (pAuthor : String) (c : RNode) (depth : Nat) : Comment :=
  { author := c.author.getD "", body := c.body, score := c.score, depth := depth,
    isOP := c.author.getD "" == pAuthor }

/-- Stable insertion into a list already in descending-score order:
together with `sortDesc` this models the stable (ES2019) JavaScript
`sort((a, b) => (b.data?.score || 0) - (a.data?.score || 0))` of
line 100. -/
def insertDesc (c : RNode) : List RNode → List RNode
  | [] => [c]
  | x :: xs => if c.score < x.score then x :: insertDesc c xs else c :: x :: xs

/-- Stable descending-score sort of a sibling list. -/
def sortDesc : List RNode → List RNode
  | [] => []
  | x :: xs => insertDesc x (sortDesc xs)

theorem sizeOf_insertDesc (c : RNode) (l : List RNode) :
    sizeOf (insertDesc c l) = sizeOf (c :: l) := by
  induction l with
  | nil => rfl
  | cons x xs ih =>
    simp only [insertDesc]
    split
    · simp only [List.cons.sizeOf_spec, ih]
      omega
    · rfl

theorem sizeOf_sortDesc (l : List RNode) : sizeOf (sortDesc l) = sizeOf l := by
  induction l with
  | nil => rfl
  | cons x xs ih =>
    simp only [sortDesc, sizeOf_insertDesc, List.cons.sizeOf_spec, ih]

theorem sizeOf_replies_lt (c : RNode) : sizeOf c.replies < sizeOf c := by
  cases c with
  | mk k a b s r => simp only [RNode.replies, RNode.mk.sizeOf_spec]; omega

/-- Untruncated depth-first flattening of an already-sorted sibling
list: each valid node contributes its comment followed by the
flattening of its (sorted) replies, then the later siblings. -/
def flattenSorted (pAuthor : String) : List RNode → Nat → List Comment
  | [], _ => []
  | c :: rest, depth =>
    if validNode c then
      mkComment pAuthor c depth ::
        (flattenSorted pAuthor (sortDesc c.replies) (depth + 1)
          ++ flattenSorted pAuthor rest depth)
    else
      flattenSorted pAuthor rest depth
termination_by l _ => sizeOf l
decreasing_by
  · simp only [sizeOf_sortDesc, List.cons.sizeOf_spec]
    have := sizeOf_replies_lt c
    omega
  · simp only [List.cons.sizeOf_spec]
    omega
  · simp only [List.cons.sizeOf_spec]
    omega

/-- The `extract` closure of `RedditClient.getPost` (lines 98-116) on an
already-sorted sibling list, with the mutable `comments` array as the
accumulator `acc`: stop once `maxComments` is reached, skip invalid
nodes, push the comment, recurse into sorted replies, then continue
with the later siblings. -/
def extractSorted (pAuthor : String) (maxComments : Nat) :
    List RNode → Nat → List Comment → List Comment
  | [], _, acc => acc
  | c :: rest, depth, acc =>
    if maxComments ≤ acc.length then acc
    else if validNode c then
      let acc1 := acc ++ [mkComment pAuthor c depth]
      let acc2 := if acc1.length < maxComments then
          extractSorted pAuthor maxComments (sortDesc c.replies) (depth + 1) acc1
        else acc1
      extractSorted pAuthor maxComments rest depth acc2
    else
      extractSorted pAuthor maxComments rest depth acc
termination_by l _ _ => sizeOf l
decreasing_by
  · simp only [sizeOf_sortDesc, List.cons.sizeOf_spec]
    have := sizeOf_replies_lt c
    omega
  · simp only [List.cons.sizeOf_spec]
    omega
  · simp only [List.cons.sizeOf_spec]
    omega

/-- `extract(commentListing.data.children)` of line 117: sort the top
level and run the extraction with an empty accumulator. -/
def extract (pAuthor : String) (maxComments : Nat) (children : List RNode) : List Comment :=
  extractSorted pAuthor maxComments (sortDesc children) 0 []

/-- The reference flattening: sort the top level and flatten without
truncation. -/
def flatten (pAuthor : String) (children : List RNode) : List Comment :=
  flattenSorted pAuthor (sortDesc children) 0

/-! ## Spec-side reference definitions -/

/-- The status dispatch table as the spec words it
(`400→InvalidInput, 401→Auth, 403→QuotaExceeded, 404→NotFound,
408→Timeout, 429→RateLimited, 500→Internal, 502/503→ServiceUnavailable,
504→Timeout, 510→ServiceUnavailable`; any other `≥500` →
ServiceUnavailable; any other → Unknown), to be compared against
`classifyHttpError`. -/
def specHttpTable (s : Nat) : ErrorCode :=
  if s = 400 then .INVALID_INPUT
  else if s = 401 then .AUTH_ERROR
  else if s = 403 then .QUOTA_EXCEEDED
  else if s = 404 then .NOT_FOUND
  else if s = 408 then .TIMEOUT
  else if s = 429 then .RATE_LIMITED
  else if s = 500 then .INTERNAL_ERROR
  else if s = 502 then .SERVICE_UNAVAILABLE
  else if s = 503 then .SERVICE_UNAVAILABLE
  else if s = 504 then .TIMEOUT
  else if s = 510 then .SERVICE_UNAVAILABLE
  else if 500 ≤ s then .SERVICE_UNAVAILABLE
  else .UNKNOWN_ERROR

/-- A trivial behaviour oracle over `Unit` arguments, used to evaluate
the dispatcher at concrete inputs. -/
def trivialBehaviour : String → ToolBehaviour Unit :=
  fun _ => { validate := fun a => .ok a, handler := fun _ => .ok "done" }

/-! ## C6: token budget allocator -/

/-- **C6** For every integer budget `total ≥ 0` and item count `n`, the
allocator is total, returns `total` itself at `n = 0`, returns
`⌊total / max(1, n)⌋` for `n ≥ 1`, and for `n ≥ 1` satisfies
`per_item · n ≤ total` and `per_item ≥ 0`; the inlined copy in
`research.ts` agrees with the shared one at budget 32000. -/
theorem tokenAllocation_correct (total n : ℤ) (htotal : 0 ≤ total) :
    (n = 0 → calculateTokenAllocation n total = total) ∧
    (1 ≤ n →
      calculateTokenAllocation n total = Int.fdiv total (max 1 n) ∧
      calculateTokenAllocation n total * n ≤ total ∧
      0 ≤ calculateTokenAllocation n total) ∧
    researchTokenAllocation n = calculateTokenAllocation n 32000 := by
  refine ⟨?_, ?_, ?_⟩
  · intro h
    simp [calculateTokenAllocation, h]
  · intro h
    have hn0 : ¬ n ≤ 0 := by omega
    have hmax : max 1 n = n := max_eq_right h
    have hfe : Int.fdiv total n = total / n := Int.fdiv_eq_ediv total (by omega)
    refine ⟨by simp [calculateTokenAllocation, hn0, hmax], ?_, ?_⟩
    · simp only [calculateTokenAllocation, if_neg hn0, hfe]
      exact Int.ediv_mul_le total (by omega)
    · simp only [calculateTokenAllocation, if_neg hn0, hfe]
      exact Int.ediv_nonneg htotal (by omega)
  · by_cases h : n ≤ 0 <;> simp [researchTokenAllocation, calculateTokenAllocation, h]

/-- Concrete instance of `tokenAllocation_correct`: budget 100 over 7
items gives a conserving, non-negative share. -/
theorem tokenAllocation_correct_witness :
    (0 : ℤ) ≤ 100 ∧ (1 : ℤ) ≤ 7 ∧
      calculateTokenAllocation 7 100 * 7 ≤ 100 ∧ 0 ≤ calculateTokenAllocation 7 100 :=
  ⟨by norm_num, by norm_num,
    ((tokenAllocation_correct 100 7 (by norm_num)).2.1 (by norm_num)).2.1,
    ((tokenAllocation_correct 100 7 (by norm_num)).2.1 (by norm_num)).2.2⟩

/-! ## C4: exponential backoff with jitter -/

/-- **C4** For every attempt index `i` and jitter sample `r ∈ [0, 1]`,
the backoff delay of `calculateBackoff` lies within
`[base·2^i, base·2^i·(1 + 0.3)]` clipped to `max_delay`, and decomposes
as the clamped exponential `min(max_delay, base·2^i)` plus a jitter
`u ∈ [0, 0.3·clamped]`; the jitterless `calculateDelay` of the second
retry implementation stays inside the same envelope. -/
theorem backoff_delay_bounds (base maxD r : ℚ) (i : ℕ)
    (hbase : 0 ≤ base) (hmaxD : 0 ≤ maxD) (hr0 : 0 ≤ r) (hr1 : r ≤ 1) :
    min (base * 2 ^ i) maxD ≤ calculateBackoff base maxD i r ∧
    calculateBackoff base maxD i r ≤ min (base * 2 ^ i * (1 + 3 / 10)) maxD ∧
    (∃ u, 0 ≤ u ∧ u ≤ 3 / 10 * min maxD (base * 2 ^ i) ∧
      calculateBackoff base maxD i r = min maxD (base * 2 ^ i) + u) ∧
    (∀ mult : ℚ, 0 ≤ mult →
      min (base * mult ^ i) maxD ≤ calculateDelay base maxD mult i ∧
      calculateDelay base maxD mult i ≤ min (base * mult ^ i * (1 + 3 / 10)) maxD) := by
  have hE : 0 ≤ base * 2 ^ i := by positivity
  have hj0 : 0 ≤ r * (3 / 10) * (base * 2 ^ i) := by positivity
  have hj1 : r * (3 / 10) * (base * 2 ^ i) ≤ 3 / 10 * (base * 2 ^ i) := by nlinarith
  refine ⟨?_, ?_, ?_, ?_⟩
  · exact min_le_min (le_add_of_nonneg_right hj0) le_rfl
  · exact min_le_min (by nlinarith) le_rfl
  · rcases le_total (base * 2 ^ i) maxD with hEm | hmE
    · refine ⟨calculateBackoff base maxD i r - base * 2 ^ i, ?_, ?_, ?_⟩
      · have : base * 2 ^ i ≤ calculateBackoff base maxD i r :=
          le_min (le_add_of_nonneg_right hj0) hEm
        linarith
      · have h1 : calculateBackoff base maxD i r ≤
            base * 2 ^ i + r * (3 / 10) * (base * 2 ^ i) := min_le_left _ _
        have : min maxD (base * 2 ^ i) = base * 2 ^ i := min_eq_right hEm
        rw [this]
        linarith
      · have : min maxD (base * 2 ^ i) = base * 2 ^ i := min_eq_right hEm
        rw [this]
        ring
    · refine ⟨0, le_rfl, by positivity, ?_⟩
      have h1 : calculateBackoff base maxD i r = maxD := by
        unfold calculateBackoff
        exact min_eq_right (by linarith)
      have h2 : min maxD (base * 2 ^ i) = maxD := min_eq_left hmE
      rw [h1, h2]
      ring
  · intro mult hmult
    have hE2 : 0 ≤ base * mult ^ i := by positivity
    exact ⟨le_rfl, min_le_min (by nlinarith) le_rfl⟩

/-- Concrete instance of `backoff_delay_bounds`: base 1000 ms, cap
30000 ms, attempt 2, jitter sample 1/2. -/
theorem backoff_delay_bounds_witness :
    (0 : ℚ) ≤ 1000 ∧ (0 : ℚ) ≤ 30000 ∧ (0 : ℚ) ≤ 1 / 2 ∧ (1 / 2 : ℚ) ≤ 1 ∧
      min ((1000 : ℚ) * 2 ^ 2) 30000 ≤ calculateBackoff 1000 30000 2 (1 / 2) :=
  ⟨by norm_num, by norm_num, by norm_num, by norm_num,
    (backoff_delay_bounds 1000 30000 (1 / 2) 2 (by norm_num) (by norm_num)
      (by norm_num) (by norm_num)).1⟩

/-! ## C5: HTTP status classification -/

/-- A thrown value that carries HTTP status 500 together with a socket
error code: the earlier network-error rule of the classifier fires before
the status dispatch. -/
def connReset500 : JsError :=
  { code := some "ECONNRESET", status := some 500,
    message := some "socket hang up", stringRep := "Error: socket hang up" }

/-- **C5 counterexample** `classifyError` applied to a value carrying
HTTP status 500 returns `NETWORK_ERROR`, not the `INTERNAL_ERROR` the
dispatch table prescribes for 500: the table only applies when no
earlier rule fires. -/
theorem classifyError_status_not_always_table :
    connReset500.statusCodeOf = 500 ∧
    (classifyError connReset500).code = ErrorCode.NETWORK_ERROR ∧
    (classifyHttpError 500 "socket hang up").code = ErrorCode.INTERNAL_ERROR ∧
    (classifyError connReset500).code ≠ (classifyHttpError 500 "socket hang up").code := by
  refine ⟨rfl, rfl, rfl, ?_⟩
  decide

/-- `classifyHttpError` maps every status to the code that the spec table
lists, with the status attached. -/
theorem classifyHttpError_table (s : Nat) (m : String) :
    (classifyHttpError s m).code = specHttpTable s ∧
    (classifyHttpError s m).statusCode = some s := by
  unfold classifyHttpError specHttpTable
  by_cases h1 : s = 400
  · subst h1; exact ⟨rfl, rfl⟩
  rw [if_neg h1, if_neg h1]
  by_cases h2 : s = 401
  · subst h2; exact ⟨rfl, rfl⟩
  rw [if_neg h2, if_neg h2]
  by_cases h3 : s = 403
  · subst h3; exact ⟨rfl, rfl⟩
  rw [if_neg h3, if_neg h3]
  by_cases h4 : s = 404
  · subst h4; exact ⟨rfl, rfl⟩
  rw [if_neg h4, if_neg h4]
  by_cases h5 : s = 408
  · subst h5; exact ⟨rfl, rfl⟩
  rw [if_neg h5, if_neg h5]
  by_cases h6 : s = 429
  · subst h6; exact ⟨rfl, rfl⟩
  rw [if_neg h6, if_neg h6]
  by_cases h7 : s = 500
  · subst h7; exact ⟨rfl, rfl⟩
  rw [if_neg h7, if_neg h7]
  by_cases h8 : s = 502
  · subst h8; exact ⟨rfl, rfl⟩
  rw [if_neg h8, if_neg h8]
  by_cases h9 : s = 503
  · subst h9; exact ⟨rfl, rfl⟩
  rw [if_neg h9, if_neg h9]
  by_cases h10 : s = 504
  · subst h10; exact ⟨rfl, rfl⟩
  rw [if_neg h10, if_neg h10]
  by_cases h11 : s = 510
  · subst h11; exact ⟨rfl, rfl⟩
  rw [if_neg h11, if_neg h11]
  by_cases h12 : 500 ≤ s
  · rw [if_pos h12, if_pos h12]; exact ⟨rfl, rfl⟩
  · rw [if_neg h12, if_neg h12]; exact ⟨rfl, rfl⟩

/-- The `retryable` flag of every table entry is true exactly for the
retryable kinds. -/
theorem classifyHttpError_retryable (s : Nat) (m : String) :
    (classifyHttpError s m).retryable = retryableKinds (classifyHttpError s m).code := by
  unfold classifyHttpError
  by_cases h1 : s = 400
  · subst h1; rfl
  rw [if_neg h1]
  by_cases h2 : s = 401
  · subst h2; rfl
  rw [if_neg h2]
  by_cases h3 : s = 403
  · subst h3; rfl
  rw [if_neg h3]
  by_cases h4 : s = 404
  · subst h4; rfl
  rw [if_neg h4]
  by_cases h5 : s = 408
  · subst h5; rfl
  rw [if_neg h5]
  by_cases h6 : s = 429
  · subst h6; rfl
  rw [if_neg h6]
  by_cases h7 : s = 500
  · subst h7; rfl
  rw [if_neg h7]
  by_cases h8 : s = 502
  · subst h8; rfl
  rw [if_neg h8]
  by_cases h9 : s = 503
  · subst h9; rfl
  rw [if_neg h9]
  by_cases h10 : s = 504
  · subst h10; rfl
  rw [if_neg h10]
  by_cases h11 : s = 510
  · subst h11; rfl
  rw [if_neg h11]
  by_cases h12 : 500 ≤ s
  · rw [if_pos h12]; rfl
  · rw [if_neg h12]; rfl

/-- **C5 (amended)** When no higher-priority rule fires (the value is
not null, not an abort, has no socket or timeout error code, no
`AbortError` name, and no timeout message), a value carrying an HTTP
status is classified by the dispatch table of `classifyHttpError`; that
table maps every status exactly as the spec lists (with the status
attached), and its `retryable` flag is true exactly for the kinds
RateLimited, Timeout, Network, ServiceUnavailable and Internal. -/
theorem classifyError_http_dispatch (e : JsError)
    (h1 : e.isNull = false) (h2 : e.isAbortDOMException = false)
    (h3 : e.code ≠ some "ECONNREFUSED") (h4 : e.code ≠ some "ENOTFOUND")
    (h5 : e.code ≠ some "ECONNRESET") (h6 : e.code ≠ some "ECONNABORTED")
    (h7 : e.code ≠ some "ETIMEDOUT") (h8 : e.name ≠ some "AbortError")
    (h9 : containsStr (lowerStr e.messageOf) "timeout" = false)
    (h10 : containsStr (lowerStr e.messageOf) "timed out" = false)
    (h11 : e.statusCodeOf ≠ 0) :
    classifyError e = classifyHttpError e.statusCodeOf e.messageOf ∧
    (∀ (s : Nat) (m : String),
      (classifyHttpError s m).code = specHttpTable s ∧
      (classifyHttpError s m).statusCode = some s) ∧
    (∀ (s : Nat) (m : String),
      (classifyHttpError s m).retryable = retryableKinds (classifyHttpError s m).code) := by
  refine ⟨?_, ?_, ?_⟩
  · unfold classifyError
    rw [if_neg (by simp [h1]), if_neg (by simp [h2])]
    rw [if_neg (by simp [h3, h4, h5]), if_neg (by simp [h6, h7, h8, h9, h10])]
    rw [if_pos h11]
  · exact classifyHttpError_table
  · exact classifyHttpError_retryable

/-- Concrete instance of `classifyError_http_dispatch`: a plain 429
error object is dispatched by the table to a retryable rate limit. -/
theorem classifyError_http_dispatch_witness :
    classifyError { status := some 429, message := some "oops", stringRep := "E" } =
      classifyHttpError 429 "oops" ∧
    (classifyHttpError 429 "oops").retryable = true :=
  ⟨(classifyError_http_dispatch
      { status := some 429, message := some "oops", stringRep := "E" }
      rfl rfl (by decide) (by decide) (by decide) (by decide) (by decide)
      (by decide) (by decide) (by decide) (by decide)).1,
   rfl⟩

/-! ## C10: invalid URL short-circuit in `scrape` -/

/-- **C10** For every request whose URL fails parsing, `scrape` returns
the `Invalid URL` response with status 400, zero credits and a
non-retryable `INVALID_INPUT` error, having performed zero fetches (so
no network attempt and no retry is consumed). -/
theorem scrape_invalid_url (url : String) (mode : ScrapeMode)
    (fetches : Nat → FetchOutcome) (maxRetries : Nat) :
    scrape url false mode fetches maxRetries =
      ({ content := "Invalid URL: " ++ url, statusCode := 400, credits := 0,
         error := some { code := .INVALID_INPUT, message := "Invalid URL: " ++ url,
                         retryable := false } }, 0) := by
  rfl

/-! ## C9: capability gating -/

/-- **C9** For every registered tool whose required capability is
disabled, `executeTool` returns the structured missing-environment
error with `isError = true`, the handler is not invoked, and the
outcome is independent of every tool behaviour (so no provider call can
be caused). -/
theorem capability_gate (α : Type) (bh bh2 : String → ToolBehaviour α)
    (caps : CapKey → Bool) (name : String) (args : α) (k : CapKey)
    (sentinel : Option String)
    (hmeta : toolMeta name = some (some k, sentinel)) (hcap : caps k = false) :
    executeTool bh caps name args =
      { outcome := .result { content := getMissingEnvMessage k, isError := some true },
        handlerInvoked := false } ∧
    executeTool bh caps name args = executeTool bh2 caps name args := by
  have h : ∀ (bh3 : String → ToolBehaviour α),
      executeTool bh3 caps name args =
        { outcome := .result { content := getMissingEnvMessage k, isError := some true },
          handlerInvoked := false } := by
    intro bh3
    unfold executeTool
    rw [hmeta]
    simp [hcap]
  exact ⟨h bh, by rw [h bh, h bh2]⟩

/-- Concrete instance of `capability_gate`: `scrape_links` with the
scraping capability disabled. -/
theorem capability_gate_witness :
    executeTool trivialBehaviour (fun _ => false) "scrape_links" () =
      { outcome := .result { content := getMissingEnvMessage .scraping, isError := some true },
        handlerInvoked := false } :=
  (capability_gate Unit trivialBehaviour trivialBehaviour (fun _ => false)
    "scrape_links" () .scraping (some "# ❌ Scraping Failed") rfl rfl).1

/-! ## C1: the dispatcher never raises -/

/-- **C1 counterexample** For an unknown tool name the dispatcher does
not return a `ToolResult`: it throws a protocol-level `McpError`
(which `src/index.ts` re-throws to the client), so "for every tool name
(known or unknown) `execute` returns a `ToolResult` and never raises"
fails as stated. -/
theorem executeTool_unknown_name_throws :
    (executeTool trivialBehaviour (fun _ => true) "definitely_not_a_tool" ()).outcome =
      .threw "Method not found: definitely_not_a_tool" := by
  rfl

/-- Every run of steps 3-5 produces a structured result. -/
theorem executeToolSteps3to5_result (α : Type) (bh : String → ToolBehaviour α)
    (name : String) (args : α) (sentinel : Option String) :
    ∃ r, (executeToolSteps3to5 bh name args sentinel).outcome = .result r := by
  unfold executeToolSteps3to5
  split
  · exact ⟨_, rfl⟩
  · exact ⟨_, rfl⟩
  · split
    · exact ⟨_, rfl⟩
    · split
      · exact ⟨_, rfl⟩
      · exact ⟨_, rfl⟩

/-- **C1 (amended)** For every registered tool name and every arguments
value, `executeTool` returns a structured `ToolResult` and never
raises — any exception thrown during handler invocation is classified
and returned as an `isError` result; only an unknown tool name raises,
as a protocol-level `McpError`. -/
theorem executeTool_known_never_raises (α : Type) (bh : String → ToolBehaviour α)
    (caps : CapKey → Bool) (name : String) (args : α)
    (hknown : (toolMeta name).isSome = true) :
    (∃ r, (executeTool bh caps name args).outcome = .result r) ∧
    (∀ v e, (bh name).validate args = .ok v → (bh name).handler v = .error e →
      ∀ meta, toolMeta name = some meta →
        (meta.1.isSome = false ∨ ∀ k, meta.1 = some k → caps k = true) →
        executeTool bh caps name args =
          { outcome := .result (createToolErrorFromStructured (classifyError e)),
            handlerInvoked := true }) := by
  constructor
  · cases hm : toolMeta name with
    | none => rw [hm] at hknown; exact absurd hknown (by simp)
    | some meta =>
      obtain ⟨capability, sentinel⟩ := meta
      cases capability with
      | some k =>
        by_cases hc : caps k = false
        · refine ⟨{ content := getMissingEnvMessage k, isError := some true }, ?_⟩
          simp [executeTool, hm, hc]
        · have h2 := executeToolSteps3to5_result α bh name args sentinel
          simpa [executeTool, hm, hc] using h2
      | none =>
        have h2 := executeToolSteps3to5_result α bh name args sentinel
        simpa [executeTool, hm] using h2
  · intro v e hv hh meta hmeta hcap
    obtain ⟨capability, sentinel⟩ := meta
    cases capability with
    | some k =>
      rcases hcap with hc | hc
      · simp at hc
      · have hck := hc k rfl
        simp [executeTool, hmeta, hck, executeToolSteps3to5, hv, hh]
    | none => simp [executeTool, hmeta, executeToolSteps3to5, hv, hh]

/-- Concrete instance of `executeTool_known_never_raises`: a known tool
with all capabilities enabled yields a structured result, and a
throwing handler is converted into an `isError` result. -/
theorem executeTool_known_never_raises_witness :
    (∃ r, (executeTool trivialBehaviour (fun _ => true) "web_search" ()).outcome =
      .result r) ∧
    executeTool
        (fun _ => { validate := fun a => .ok a,
                    handler := fun _ => .error { stringRep := "boom" } })
        (fun _ => true) "web_search" () =
      { outcome := .result (createToolErrorFromStructured
          (classifyError { stringRep := "boom" })),
        handlerInvoked := true } :=
  ⟨(executeTool_known_never_raises Unit trivialBehaviour (fun _ => true)
      "web_search" () rfl).1,
   (executeTool_known_never_raises Unit
      (fun _ => { validate := fun a => .ok a,
                  handler := fun _ => .error { stringRep := "boom" } })
      (fun _ => true) "web_search" () rfl).2 () { stringRep := "boom" } rfl rfl
      (some .search, some "# ❌ web_search") rfl
      (Or.inr (fun k hk => by cases hk; rfl))⟩

/-! ## C3: retry engine behaviour -/

theorem withRetryGo_ok (fn : Nat → Except JsError α) (maxR : Nat) (b m : ℚ)
    (r : Nat → ℚ) (a : Nat) (s : List ℚ) (v : α) (hok : fn a = .ok v) :
    withRetryGo fn maxR b m r a s = .success v s := by
  rw [withRetryGo, hok]

theorem withRetryGo_nonretry (fn : Nat → Except JsError α) (maxR : Nat) (b m : ℚ)
    (r : Nat → ℚ) (a : Nat) (s : List ℚ) (e : JsError) (he : fn a = .error e)
    (hr : (classifyError e).retryable = false) :
    withRetryGo fn maxR b m r a s = .failure (classifyError e) (a + 1) s := by
  rw [withRetryGo, he]
  simp [hr]

theorem withRetryGo_last (fn : Nat → Except JsError α) (maxR : Nat) (b m : ℚ)
    (r : Nat → ℚ) (a : Nat) (s : List ℚ) (e : JsError) (he : fn a = .error e)
    (hr : (classifyError e).retryable = true) (hlast : maxR ≤ a) :
    withRetryGo fn maxR b m r a s = .failure (classifyError e) (a + 1) s := by
  rw [withRetryGo, he]
  simp [hr, hlast]

theorem withRetryGo_step (fn : Nat → Except JsError α) (maxR : Nat) (b m : ℚ)
    (r : Nat → ℚ) (a : Nat) (s : List ℚ) (e : JsError) (he : fn a = .error e)
    (hr : (classifyError e).retryable = true) (hlt : a < maxR) :
    withRetryGo fn maxR b m r a s =
      withRetryGo fn maxR b m r (a + 1) (s ++ [calculateBackoff b m a (r a)]) := by
  conv_lhs => rw [withRetryGo]
  rw [he]
  simp [hr, Nat.not_le.mpr hlt]

theorem withRetryGo_skip_run (fn : Nat → Except JsError α) (maxR : Nat) (b m : ℚ)
    (r : Nat → ℚ) (i : Nat) :
    ∀ (a : Nat) (s : List ℚ),
      (∀ j, j < i → ∃ e, fn (a + j) = .error e ∧ (classifyError e).retryable = true) →
      a + i ≤ maxR →
      withRetryGo fn maxR b m r a s =
        withRetryGo fn maxR b m r (a + i)
          (s ++ (List.range i).map (fun j => calculateBackoff b m (a + j) (r (a + j)))) := by
  induction i with
  | zero => intro a s _ _; simp
  | succ n ih =>
    intro a s hfail hle
    obtain ⟨e, he, hr⟩ := hfail 0 (Nat.succ_pos n)
    rw [show a + 0 = a by omega] at he
    rw [withRetryGo_step fn maxR b m r a s e he hr (by omega)]
    rw [ih (a + 1) (s ++ [calculateBackoff b m a (r a)])
      (fun j hj => by
        obtain ⟨e2, he2, hr2⟩ := hfail (j + 1) (by omega)
        exact ⟨e2, by rw [show a + 1 + j = a + (j + 1) by omega]; exact he2, hr2⟩)
      (by omega)]
    rw [show a + 1 + n = a + (n + 1) from by omega]
    congr 1
    rw [List.append_assoc, List.range_succ_eq_map, List.map_cons,
      List.map_map, List.singleton_append, Nat.add_zero]
    congr 2
    exact List.map_congr_left (fun j _ => by
      simp only [Function.comp]
      rw [show a + 1 + j = a + (j + 1) from by omega])

/-- The delays slept by `withRetry` before reaching attempt `i`. -/
def backoffSleeps (b m : ℚ) (r : Nat → ℚ) (i : Nat) : List ℚ :=
  (List.range i).map (fun j => calculateBackoff b m j (r j))

theorem retryWithBackoffGo_ok (fn : Nat → Except JsError α) (maxR : Nat)
    (b m mult : ℚ) (p : JsError → Bool) (a : Nat) (t : ℚ) (le : Option JsError)
    (v : α) (ha : a < maxR) (hok : fn a = .ok v) :
    retryWithBackoffGo fn maxR b m mult p a t le =
      { success := true, data := some v, error := none, attempts := a + 1, totalDelayMs := t } := by
  rw [retryWithBackoffGo]
  simp only [ha, dif_pos]
  rw [hok]

theorem retryWithBackoffGo_nonretry (fn : Nat → Except JsError α) (maxR : Nat)
    (b m mult : ℚ) (p : JsError → Bool) (a : Nat) (t : ℚ) (le : Option JsError)
    (e : JsError) (ha : a < maxR) (he : fn a = .error e) (hp : p e = false) :
    retryWithBackoffGo fn maxR b m mult p a t le =
      { success := false, data := none, error := some e, attempts := a + 1, totalDelayMs := t } := by
  rw [retryWithBackoffGo]
  simp only [ha, dif_pos]
  rw [he]
  simp [hp]

theorem retryWithBackoffGo_last (fn : Nat → Except JsError α) (maxR : Nat)
    (b m mult : ℚ) (p : JsError → Bool) (a : Nat) (t : ℚ) (le : Option JsError)
    (e : JsError) (ha : a < maxR) (hlast : ¬ a + 1 < maxR) (he : fn a = .error e)
    (hp : p e = true) :
    retryWithBackoffGo fn maxR b m mult p a t le =
      { success := false, data := none, error := some e, attempts := maxR, totalDelayMs := t } := by
  rw [retryWithBackoffGo]
  simp only [ha, dif_pos]
  rw [he]
  simp [hp, hlast]

theorem retryWithBackoffGo_step (fn : Nat → Except JsError α) (maxR : Nat)
    (b m mult : ℚ) (p : JsError → Bool) (a : Nat) (t : ℚ) (le : Option JsError)
    (e : JsError) (hlt : a + 1 < maxR) (he : fn a = .error e) (hp : p e = true) :
    retryWithBackoffGo fn maxR b m mult p a t le =
      retryWithBackoffGo fn maxR b m mult p (a + 1) (t + calculateDelay b m mult a) (some e) := by
  conv_lhs => rw [retryWithBackoffGo]
  simp only [show a < maxR by omega, dif_pos]
  rw [he]
  simp [hp, hlt]

theorem retryWithBackoffGo_skip_run (fn : Nat → Except JsError α) (maxR : Nat)
    (b m mult : ℚ) (p : JsError → Bool) (i : Nat) :
    ∀ (a : Nat) (t : ℚ) (le : Option JsError),
      (∀ j, j < i → ∃ e, fn (a + j) = .error e ∧ p e = true) →
      a + i < maxR →
      ∃ le2, retryWithBackoffGo fn maxR b m mult p a t le =
        retryWithBackoffGo fn maxR b m mult p (a + i)
          (t + ((List.range i).map (fun j => calculateDelay b m mult (a + j))).sum) le2 := by
  induction i with
  | zero => intro a t le _ _; exact ⟨le, by simp⟩
  | succ n ih =>
    intro a t le hfail hlt
    obtain ⟨e, he, hp⟩ := hfail 0 (Nat.succ_pos n)
    rw [show a + 0 = a by omega] at he
    rw [retryWithBackoffGo_step fn maxR b m mult p a t le e (by omega) he hp]
    obtain ⟨le2, hrec⟩ := ih (a + 1) (t + calculateDelay b m mult a) (some e)
      (fun j hj => by
        obtain ⟨e2, he2, hp2⟩ := hfail (j + 1) (by omega)
        exact ⟨e2, by rw [show a + 1 + j = a + (j + 1) by omega]; exact he2, hp2⟩)
      (by omega)
    refine ⟨le2, ?_⟩
    rw [hrec]
    congr 1
    · omega
    · rw [List.range_succ_eq_map, List.map_cons, List.map_map, List.sum_cons]
      have hmap : (List.map (fun j => calculateDelay b m mult (a + 1 + j)) (List.range n)) =
          (List.map ((fun j => calculateDelay b m mult (a + j)) ∘ Nat.succ) (List.range n)) :=
        List.map_congr_left (fun j _ => by
          simp only [Function.comp]
          congr 1
          omega)
      rw [← hmap, show a + 0 = a by omega]
      ring

/-- The total delay accumulated by `retryWithBackoff` before reaching
attempt `i`. -/
def delayTotal (b m mult : ℚ) (i : Nat) : ℚ :=
  ((List.range i).map (fun j => calculateDelay b m mult j)).sum

/-- **C3** The retry engines return a success/failure value and never
throw.  For `withRetry`: a first success at attempt `i` (all earlier
attempts failing retryably) returns the value of that attempt unaltered,
having slept the backoff of each earlier attempt; a non-retryable
failure at attempt `i` returns its classification immediately with
`i + 1` attempts; if every allowed attempt fails retryably, the
classification of the last failure is returned with `maxRetries + 1`
attempts.  For `retryWithBackoff` (where `maxRetries` counts attempts
and classification is the `shouldRetry` predicate): the analogous three
facts, with `totalDelayMs` the sum of the per-attempt delays. -/
theorem retry_engine_behaviour (α : Type) :
    (∀ (fn : Nat → Except JsError α) (maxR : Nat) (b m : ℚ) (r : Nat → ℚ) (i : Nat) (v : α),
      i ≤ maxR →
      (∀ j, j < i → ∃ e, fn j = .error e ∧ (classifyError e).retryable = true) →
      fn i = .ok v →
      withRetry fn maxR b m r = .success v (backoffSleeps b m r i)) ∧
    (∀ (fn : Nat → Except JsError α) (maxR : Nat) (b m : ℚ) (r : Nat → ℚ) (i : Nat) (e : JsError),
      i ≤ maxR →
      (∀ j, j < i → ∃ e2, fn j = .error e2 ∧ (classifyError e2).retryable = true) →
      fn i = .error e → (classifyError e).retryable = false →
      withRetry fn maxR b m r = .failure (classifyError e) (i + 1) (backoffSleeps b m r i)) ∧
    (∀ (fn : Nat → Except JsError α) (maxR : Nat) (b m : ℚ) (r : Nat → ℚ),
      (∀ j, j ≤ maxR → ∃ e, fn j = .error e ∧ (classifyError e).retryable = true) →
      ∃ e, fn maxR = .error e ∧
        withRetry fn maxR b m r =
          .failure (classifyError e) (maxR + 1) (backoffSleeps b m r maxR)) ∧
    (∀ (fn : Nat → Except JsError α) (maxR : Nat) (b m mult : ℚ) (p : JsError → Bool)
        (i : Nat) (v : α),
      i < maxR →
      (∀ j, j < i → ∃ e, fn j = .error e ∧ p e = true) →
      fn i = .ok v →
      retryWithBackoff fn maxR b m mult p =
        { success := true, data := some v, error := none, attempts := i + 1,
          totalDelayMs := delayTotal b m mult i }) ∧
    (∀ (fn : Nat → Except JsError α) (maxR : Nat) (b m mult : ℚ) (p : JsError → Bool)
        (i : Nat) (e : JsError),
      i < maxR →
      (∀ j, j < i → ∃ e2, fn j = .error e2 ∧ p e2 = true) →
      fn i = .error e → p e = false →
      retryWithBackoff fn maxR b m mult p =
        { success := false, data := none, error := some e, attempts := i + 1,
          totalDelayMs := delayTotal b m mult i }) ∧
    (∀ (fn : Nat → Except JsError α) (maxR : Nat) (b m mult : ℚ) (p : JsError → Bool),
      0 < maxR →
      (∀ j, j < maxR → ∃ e, fn j = .error e ∧ p e = true) →
      ∃ e, fn (maxR - 1) = .error e ∧
        retryWithBackoff fn maxR b m mult p =
          { success := false, data := none, error := some e, attempts := maxR,
            totalDelayMs := delayTotal b m mult (maxR - 1) }) := by
  refine ⟨?_, ?_, ?_, ?_, ?_, ?_⟩
  · intro fn maxR b m r i v hle hfail hok
    unfold withRetry
    rw [withRetryGo_skip_run fn maxR b m r i 0 []
      (fun j hj => by simpa using hfail j hj) (by omega)]
    simp only [List.nil_append, Nat.zero_add]
    exact withRetryGo_ok fn maxR b m r i _ v hok
  · intro fn maxR b m r i e hle hfail he hr
    unfold withRetry
    rw [withRetryGo_skip_run fn maxR b m r i 0 []
      (fun j hj => by simpa using hfail j hj) (by omega)]
    simp only [List.nil_append, Nat.zero_add]
    exact withRetryGo_nonretry fn maxR b m r i _ e he hr
  · intro fn maxR b m r hfail
    obtain ⟨e, he, hr⟩ := hfail maxR (le_refl maxR)
    refine ⟨e, he, ?_⟩
    unfold withRetry
    rw [withRetryGo_skip_run fn maxR b m r maxR 0 []
      (fun j hj => by simpa using hfail j (by omega)) (by omega)]
    simp only [List.nil_append, Nat.zero_add]
    exact withRetryGo_last fn maxR b m r maxR _ e he hr (le_refl maxR)
  · intro fn maxR b m mult p i v hlt hfail hok
    unfold retryWithBackoff
    obtain ⟨le2, hrun⟩ := retryWithBackoffGo_skip_run fn maxR b m mult p i 0 0 none
      (fun j hj => by simpa using hfail j hj) (by omega)
    rw [hrun]
    simp only [Nat.zero_add, zero_add]
    exact retryWithBackoffGo_ok fn maxR b m mult p i _ le2 v hlt hok
  · intro fn maxR b m mult p i e hlt hfail he hp
    unfold retryWithBackoff
    obtain ⟨le2, hrun⟩ := retryWithBackoffGo_skip_run fn maxR b m mult p i 0 0 none
      (fun j hj => by simpa using hfail j hj) (by omega)
    rw [hrun]
    simp only [Nat.zero_add, zero_add]
    exact retryWithBackoffGo_nonretry fn maxR b m mult p i _ le2 e hlt he hp
  · intro fn maxR b m mult p hpos hfail
    obtain ⟨e, he, hp⟩ := hfail (maxR - 1) (by omega)
    refine ⟨e, he, ?_⟩
    unfold retryWithBackoff
    obtain ⟨le2, hrun⟩ := retryWithBackoffGo_skip_run fn maxR b m mult p (maxR - 1) 0 0 none
      (fun j hj => by simpa using hfail j (by omega)) (by omega)
    rw [hrun]
    simp only [Nat.zero_add, zero_add]
    rw [retryWithBackoffGo_last fn maxR b m mult p (maxR - 1) _ le2 e
      (by omega) (by omega) he hp]
    rfl

/-- Concrete instance of `retry_engine_behaviour`: one retryable 429
failure, then success on the second attempt, sleeping one backoff. -/
theorem retry_engine_behaviour_witness :
    withRetry (fun j => if j = 0 then .error { status := some 429, stringRep := "E" }
        else .ok (7 : Nat)) 3 1000 30000 (fun _ => 0) =
      .success 7 [calculateBackoff 1000 30000 0 0] :=
  (retry_engine_behaviour Nat).1
    (fun j => if j = 0 then .error { status := some 429, stringRep := "E" } else .ok 7)
    3 1000 30000 (fun _ => 0) 1 7 (by omega)
    (fun j hj => ⟨{ status := some 429, stringRep := "E" },
      by rw [show j = 0 by omega]; rfl, by rfl⟩)
    rfl

/-! ## C2: chunked fan-out scheduling -/

theorem chunkStart_mono (d : Nat → Nat) (K N pause : Nat) :
    ∀ {b b2 : Nat}, b ≤ b2 → chunkStart d K N pause b ≤ chunkStart d K N pause b2 := by
  intro b b2 h
  induction b2 with
  | zero => simp_all
  | succ n ih =>
    rcases Nat.lt_or_ge b (n + 1) with hlt | hge
    · have := ih (by omega)
      simp only [chunkStart]
      omega
    · rw [show b = n + 1 by omega]

theorem duration_le_chunkMax (d : Nat → Nat) (K N : Nat) (i : Nat)
    (hK : 1 ≤ K) (hi : i < N) : d i ≤ chunkMax d K N (i / K) := by
  apply Finset.le_sup
  rw [Finset.mem_Ico]
  have hq := Nat.div_add_mod i K
  have hm : i % K < K := Nat.mod_lt _ (by omega)
  have hc : i / K * K = K * (i / K) := Nat.mul_comm _ _
  have hc2 : (i / K + 1) * K = K * (i / K) + K := by ring
  refine ⟨by omega, lt_min (by omega) hi⟩

theorem taskFinish_le_next_chunk (d : Nat → Nat) (K N pause : Nat) (i : Nat)
    (hK : 1 ≤ K) (hi : i < N) :
    taskFinish d K N pause i + pause ≤ chunkStart d K N pause (i / K + 1) := by
  have h := duration_le_chunkMax d K N i hK hi
  simp only [taskFinish, taskStart, chunkStart]
  omega

/-- **C2 counterexample** With three tasks, cap 2 and durations 1, 5, 1,
the first task finishes at instant 1 while only one task remains in
flight and the third is still unstarted, yet no task starts at instant
1 (the third starts only at 505, after the whole first chunk and the
500 ms pause): the executor is chunked, not sliding-window, so "a new
task starts as soon as a previous task finishes" fails. -/
theorem chunked_executor_not_work_conserving :
    taskFinish dEx 2 3 500 0 = 1 ∧
    inFlight dEx 2 3 500 1 = 1 ∧
    taskStart dEx 2 3 500 2 = 505 ∧
    ¬ WorkConserving dEx 2 3 500 := by
  refine ⟨by decide, by decide, by decide, ?_⟩
  intro h
  obtain ⟨j, hj, hstart⟩ := h 0 (by decide) ⟨2, by decide, by decide⟩
  revert hstart
  interval_cases j <;> decide

/-- **C2 (amended)** For every chunked fan-out (batched scraping,
batched LLM extraction) with chunk size `K ≥ 1`: at every instant the
number of started-but-not-finished tasks is at most `K`; but tasks run
in consecutive chunks, and a task of a later chunk starts only after
every task of each earlier chunk has finished plus the fixed inter-chunk
pause — not as soon as an individual task finishes. -/
theorem chunked_executor_bound (d : Nat → Nat) (K N pause : Nat) (hK : 1 ≤ K) :
    (∀ t, inFlight d K N pause t ≤ K) ∧
    (∀ i j, i < N → j < N → i / K < j / K →
      taskFinish d K N pause i + pause ≤ taskStart d K N pause j) := by
  have hseq : ∀ i j, i < N → j < N → i / K < j / K →
      taskFinish d K N pause i + pause ≤ taskStart d K N pause j := by
    intro i j hi hj hij
    calc taskFinish d K N pause i + pause ≤ chunkStart d K N pause (i / K + 1) :=
          taskFinish_le_next_chunk d K N pause i hK hi
      _ ≤ chunkStart d K N pause (j / K) := chunkStart_mono d K N pause (by omega)
      _ = taskStart d K N pause j := rfl
  refine ⟨?_, hseq⟩
  intro t
  set F := (Finset.range N).filter
    (fun i => taskStart d K N pause i ≤ t ∧ t < taskFinish d K N pause i) with hFdef
  rcases F.eq_empty_or_nonempty with hF | ⟨i0, hi0⟩
  · simp [inFlight, ← hFdef, hF]
  · have hmem : ∀ j ∈ F, j < N ∧ taskStart d K N pause j ≤ t ∧ t < taskFinish d K N pause j := by
      intro j hj
      rw [hFdef, Finset.mem_filter, Finset.mem_range] at hj
      exact ⟨hj.1, hj.2.1, hj.2.2⟩
    obtain ⟨hi0N, hi0s, hi0f⟩ := hmem i0 hi0
    have hsame : ∀ j ∈ F, j / K = i0 / K := by
      intro j hj
      obtain ⟨hjN, hjs, hjf⟩ := hmem j hj
      rcases Nat.lt_trichotomy (j / K) (i0 / K) with h | h | h
      · exfalso
        have := hseq j i0 hjN hi0N h
        omega
      · exact h
      · exfalso
        have := hseq i0 j hi0N hjN h
        omega
    have hsub : F ⊆ Finset.Ico (i0 / K * K) (i0 / K * K + K) := by
      intro j hj
      have hdiv := hsame j hj
      rw [Finset.mem_Ico]
      have hq := Nat.div_add_mod j K
      have hm : j % K < K := Nat.mod_lt _ (by omega)
      have hc : i0 / K * K = K * (j / K) := by rw [← hdiv]; ring
      omega
    have hcard := Finset.card_le_card hsub
    rw [Nat.card_Ico] at hcard
    simp only [inFlight, ← hFdef]
    omega

/-- Concrete instance of `chunked_executor_bound`: the counterexample
run stays within the cap at instant 1. -/
theorem chunked_executor_bound_witness :
    (1 : Nat) ≤ 2 ∧ inFlight dEx 2 3 500 1 ≤ 2 :=
  ⟨by omega, (chunked_executor_bound dEx 2 3 500 (by omega)).1 1⟩

/-! ## C7: the scrape fallback ladder -/

/-- A mode result on which the ladder returns immediately: a clean 2xx,
a 404, or a non-retryable (permanent) error. -/
def fallbackStops (r : ScrapeResponse) : Prop :=
  ((200 ≤ r.statusCode ∧ r.statusCode < 300) ∧ r.error = none) ∨
    r.statusCode = 404 ∨ nonRetryableError r = true

/-- A mode result on which the ladder advances to the next mode. -/
def fallbackAdvances (r : ScrapeResponse) : Prop :=
  ¬ ((200 ≤ r.statusCode ∧ r.statusCode < 300) ∧ r.error = none) ∧
    r.statusCode ≠ 404 ∧ nonRetryableError r = false

theorem fallbackGo_stop (url : String) (uv : Bool) (ff : Nat → Nat → FetchOutcome)
    (maxR : Nat) (idx : Nat) (mode : ScrapeMode) (desc : String)
    (rest : List (Nat × ScrapeMode × String)) (last : Option ScrapeResponse)
    (acc : List String) (tried : Nat)
    (h : fallbackStops ((scrape url uv mode (ff idx) maxR).1)) :
    fallbackGo url uv ff maxR ((idx, mode, desc) :: rest) last acc tried =
      ((scrape url uv mode (ff idx) maxR).1, tried + 1) := by
  simp only [fallbackGo]
  by_cases h1 : (200 ≤ (scrape url uv mode (ff idx) maxR).1.statusCode ∧
      (scrape url uv mode (ff idx) maxR).1.statusCode < 300) ∧
      (scrape url uv mode (ff idx) maxR).1.error = none
  · rw [if_pos h1]
  · rw [if_neg h1]
    by_cases h2 : (scrape url uv mode (ff idx) maxR).1.statusCode = 404
    · rw [if_pos h2]
    · rw [if_neg h2]
      rcases h with h | h | h
      · exact absurd h h1
      · exact absurd h h2
      · rw [if_pos h]

theorem fallbackGo_advance (url : String) (uv : Bool) (ff : Nat → Nat → FetchOutcome)
    (maxR : Nat) (idx : Nat) (mode : ScrapeMode) (desc : String)
    (rest : List (Nat × ScrapeMode × String)) (last : Option ScrapeResponse)
    (acc : List String) (tried : Nat)
    (h : fallbackAdvances ((scrape url uv mode (ff idx) maxR).1)) :
    fallbackGo url uv ff maxR ((idx, mode, desc) :: rest) last acc tried =
      fallbackGo url uv ff maxR rest (some ((scrape url uv mode (ff idx) maxR).1))
        (acc ++ [desc ++ ": " ++ failureReason ((scrape url uv mode (ff idx) maxR).1)])
        (tried + 1) := by
  obtain ⟨h1, h2, h3⟩ := h
  simp only [fallbackGo]
  rw [if_neg h1, if_neg h2, if_neg (by simp [h3])]

/-- `scrape` on a first fetch answering a permanent status (400, 401 or
403): the immediate permanent-failure response, one fetch used, credits
zeroed, error non-retryable. -/
theorem scrapeGo_permanent (fetches : Nat → FetchOutcome) (maxR credits a used : Nat)
    (le : Option StructuredError) (st : Nat) (content : String)
    (hst : st = 400 ∨ st = 401 ∨ st = 403) (ha : a < maxR)
    (hfetch : fetches a = .ok st content) :
    scrapeGo fetches maxR credits a le used =
      ({ content := "Error: " ++ (if st = 401 then "No credits remaining or subscription suspended"
           else "Request failed with status " ++ toString st),
         statusCode := st, credits := 0,
         error := some { code := if st = 401 then .AUTH_ERROR else .INVALID_INPUT,
                         message := if st = 401 then "No credits remaining or subscription suspended"
                           else "Request failed with status " ++ toString st,
                         retryable := false, statusCode := some st } }, used + 1) := by
  rw [scrapeGo]
  simp only [ha, dif_pos, hfetch]
  rw [if_neg (show ¬ (200 ≤ st ∧ st < 300) by omega),
    if_neg (show ¬ st = 404 by omega), if_pos hst]

/-- **C7** The fallback ladder tries basic, then javascript, then
javascript+geo, in that order: it returns the first mode result that is
a clean 2xx, a 404, or a permanent (non-retryable) failure — trying no
further mode — and advances past a mode exactly on a non-permanent
failure; after three advances it returns the aggregate failure.  In
particular a first-mode fetch answering 400, 401 or 403 ends the ladder
at once with that status and a non-retryable error, no later ladder
mode and no retry being attempted. -/
theorem scrapeWithFallback_ladder (url : String) (uv : Bool)
    (ff : Nat → Nat → FetchOutcome) (maxR : Nat) :
    (fallbackStops ((scrape url uv .basic (ff 0) maxR).1) →
      scrapeWithFallback url uv ff maxR = ((scrape url uv .basic (ff 0) maxR).1, 1)) ∧
    (fallbackAdvances ((scrape url uv .basic (ff 0) maxR).1) →
      fallbackStops ((scrape url uv .javascript (ff 1) maxR).1) →
      scrapeWithFallback url uv ff maxR = ((scrape url uv .javascript (ff 1) maxR).1, 2)) ∧
    (fallbackAdvances ((scrape url uv .basic (ff 0) maxR).1) →
      fallbackAdvances ((scrape url uv .javascript (ff 1) maxR).1) →
      fallbackStops ((scrape url uv .javascript (ff 2) maxR).1) →
      scrapeWithFallback url uv ff maxR = ((scrape url uv .javascript (ff 2) maxR).1, 3)) ∧
    (fallbackAdvances ((scrape url uv .basic (ff 0) maxR).1) →
      fallbackAdvances ((scrape url uv .javascript (ff 1) maxR).1) →
      fallbackAdvances ((scrape url uv .javascript (ff 2) maxR).1) →
      (scrapeWithFallback url uv ff maxR).2 = 3 ∧
      (scrapeWithFallback url uv ff maxR).1.error =
        some { code := .SERVICE_UNAVAILABLE,
               message := "Failed after 3 fallback modes: " ++ String.intercalate "; "
                 ["basic mode: " ++ failureReason ((scrape url uv .basic (ff 0) maxR).1),
                  "javascript rendering: " ++ failureReason ((scrape url uv .javascript (ff 1) maxR).1),
                  "javascript + US geo-targeting: " ++ failureReason ((scrape url uv .javascript (ff 2) maxR).1)],
               retryable := false }) ∧
    (∀ st content, (st = 400 ∨ st = 401 ∨ st = 403) → 1 ≤ maxR →
      ff 0 0 = .ok st content →
      (scrapeWithFallback url true ff maxR).2 = 1 ∧
      (scrapeWithFallback url true ff maxR).1.statusCode = st ∧
      (scrapeWithFallback url true ff maxR).1.error =
        some { code := if st = 401 then .AUTH_ERROR else .INVALID_INPUT,
               message := if st = 401 then "No credits remaining or subscription suspended"
                 else "Request failed with status " ++ toString st,
               retryable := false, statusCode := some st } ∧
      (scrape url true .basic (ff 0) maxR).2 = 1) := by
  refine ⟨?_, ?_, ?_, ?_, ?_⟩
  · intro h0
    exact fallbackGo_stop url uv ff maxR 0 .basic "basic mode" _ none [] 0 h0
  · intro h0 h1
    unfold scrapeWithFallback ladder
    rw [fallbackGo_advance url uv ff maxR 0 .basic "basic mode" _ none [] 0 h0]
    exact fallbackGo_stop url uv ff maxR 1 .javascript "javascript rendering" _ _ _ 1 h1
  · intro h0 h1 h2
    unfold scrapeWithFallback ladder
    rw [fallbackGo_advance url uv ff maxR 0 .basic "basic mode" _ none [] 0 h0]
    rw [fallbackGo_advance url uv ff maxR 1 .javascript "javascript rendering" _ _ _ 1 h1]
    exact fallbackGo_stop url uv ff maxR 2 .javascript "javascript + US geo-targeting" _ _ _ 2 h2
  · intro h0 h1 h2
    unfold scrapeWithFallback ladder
    rw [fallbackGo_advance url uv ff maxR 0 .basic "basic mode" _ none [] 0 h0]
    rw [fallbackGo_advance url uv ff maxR 1 .javascript "javascript rendering" _ _ _ 1 h1]
    rw [fallbackGo_advance url uv ff maxR 2 .javascript "javascript + US geo-targeting" _ _ _ 2 h2]
    simp [fallbackGo]
  · intro st content hst hmaxR hfetch
    have hsc : scrape url true .basic (ff 0) maxR =
        ({ content := "Error: " ++ (if st = 401 then "No credits remaining or subscription suspended"
             else "Request failed with status " ++ toString st),
           statusCode := st, credits := 0,
           error := some { code := if st = 401 then .AUTH_ERROR else .INVALID_INPUT,
                           message := if st = 401 then "No credits remaining or subscription suspended"
                             else "Request failed with status " ++ toString st,
                           retryable := false, statusCode := some st } }, 1) := by
      unfold scrape
      simp only [Bool.false_eq_true, if_neg, reduceIte]
      exact scrapeGo_permanent (ff 0) maxR 1 0 0 none st content hst (by omega) hfetch
    have hstop : fallbackStops ((scrape url true .basic (ff 0) maxR).1) := by
      rw [hsc]
      right; right
      rfl
    have := fallbackGo_stop url true ff maxR 0 .basic "basic mode"
      [(1, ScrapeMode.javascript, "javascript rendering"),
       (2, ScrapeMode.javascript, "javascript + US geo-targeting")] none [] 0 hstop
    have hres : scrapeWithFallback url true ff maxR = ((scrape url true .basic (ff 0) maxR).1, 1) := this
    rw [hres, hsc]
    exact ⟨rfl, rfl, rfl, rfl⟩

/-- Concrete instance of `scrapeWithFallback_ladder`: a first-mode 401
ends the ladder immediately with an `AUTH_ERROR`. -/
theorem scrapeWithFallback_ladder_witness :
    (scrapeWithFallback "https://x.test" true (fun _ _ => .ok 401 "no credits") 2).2 = 1 ∧
    (scrapeWithFallback "https://x.test" true (fun _ _ => .ok 401 "no credits") 2).1.error =
      some { code := .AUTH_ERROR, message := "No credits remaining or subscription suspended",
             retryable := false, statusCode := some 401 } := by
  have h := (scrapeWithFallback_ladder "https://x.test" true (fun _ _ => .ok 401 "no credits") 2).2.2.2.2
    401 "no credits" (by omega) (by omega) rfl
  exact ⟨h.1, by rw [h.2.2.1]; simp⟩

/-! ## C8: Reddit comment flattening -/

theorem insertDesc_perm (c : RNode) (l : List RNode) :
    List.Perm (insertDesc c l) (c :: l) := by
  induction l with
  | nil => exact List.Perm.refl _
  | cons x xs ih =>
    simp only [insertDesc]
    split
    · exact ((ih.cons x).trans (List.Perm.swap c x xs))
    · exact List.Perm.refl _

theorem sortDesc_perm (l : List RNode) : List.Perm (sortDesc l) l := by
  induction l with
  | nil => exact List.Perm.refl _
  | cons x xs ih =>
    simp only [sortDesc]
    exact (insertDesc_perm x (sortDesc xs)).trans (ih.cons x)

theorem insertDesc_pairwise (c : RNode) (l : List RNode)
    (h : List.Pairwise (fun a b => b.score ≤ a.score) l) :
    List.Pairwise (fun a b => b.score ≤ a.score) (insertDesc c l) := by
  induction l with
  | nil => simp [insertDesc]
  | cons x xs ih =>
    simp only [insertDesc]
    rcases List.pairwise_cons.mp h with ⟨hx, hxs⟩
    split
    · rename_i hlt
      rw [List.pairwise_cons]
      refine ⟨?_, ih hxs⟩
      intro y hy
      rcases List.mem_cons.mp ((insertDesc_perm c xs).mem_iff.mp hy) with rfl | hmem
      · omega
      · exact hx y hmem
    · rename_i hge
      rw [List.pairwise_cons]
      refine ⟨?_, h⟩
      intro y hy
      rcases List.mem_cons.mp hy with rfl | hmem
      · omega
      · have := hx y hmem
        omega

theorem sortDesc_pairwise (l : List RNode) :
    List.Pairwise (fun a b => b.score ≤ a.score) (sortDesc l) := by
  induction l with
  | nil => simp [sortDesc]
  | cons x xs ih => exact insertDesc_pairwise x (sortDesc xs) ih

theorem sizeOf_rnode_pos (c : RNode) : 1 ≤ sizeOf c := by
  cases c with
  | mk k a b s r => simp [RNode.mk.sizeOf_spec]; omega

theorem validNode_author (c : RNode) (h : validNode c = true) :
    ∃ a, c.author = some a ∧ a ≠ "" ∧ a ≠ "[deleted]" := by
  unfold validNode at h
  cases ha : c.author with
  | none => rw [ha] at h; simp at h
  | some a =>
    rw [ha] at h
    simp only [Bool.and_eq_true, bne_iff_ne, beq_iff_eq] at h
    exact ⟨a, rfl, h.2.1, h.2.2⟩

theorem flattenSorted_author (p : String) :
    ∀ (n : Nat) (ws : List RNode) (depth : Nat) (cmt : Comment),
      sizeOf ws ≤ n → cmt ∈ flattenSorted p ws depth →
      cmt.author ≠ "" ∧ cmt.author ≠ "[deleted]" := by
  intro n
  induction n with
  | zero =>
    intro ws depth cmt hsz hmem
    cases ws with
    | nil => simp [flattenSorted] at hmem
    | cons c rest =>
      simp only [List.cons.sizeOf_spec] at hsz
      omega
  | succ k ih =>
    intro ws depth cmt hsz hmem
    cases ws with
    | nil => simp [flattenSorted] at hmem
    | cons c rest =>
      simp only [List.cons.sizeOf_spec] at hsz
      have hc1 := sizeOf_rnode_pos c
      have hcr := sizeOf_replies_lt c
      simp only [flattenSorted] at hmem
      by_cases hv : validNode c = true
      · rw [if_pos hv] at hmem
        rcases List.mem_cons.mp hmem with rfl | hmem2
        · obtain ⟨a, ha, hne, hnd⟩ := validNode_author c hv
          unfold mkComment
          rw [ha]
          exact ⟨hne, hnd⟩
        · rcases List.mem_append.mp hmem2 with hmem3 | hmem3
          · exact ih (sortDesc c.replies) (depth + 1) cmt
              (by rw [sizeOf_sortDesc]; omega) hmem3
          · exact ih rest depth cmt (by omega) hmem3
      · rw [if_neg hv] at hmem
        exact ih rest depth cmt (by omega) hmem

theorem extractSorted_take (p : String) (m : Nat) :
    ∀ (n : Nat) (ws : List RNode) (depth : Nat) (acc : List Comment),
      sizeOf ws ≤ n → acc.length ≤ m →
      extractSorted p m ws depth acc =
        acc ++ (flattenSorted p ws depth).take (m - acc.length) := by
  intro n
  induction n with
  | zero =>
    intro ws depth acc hsz hlen
    cases ws with
    | nil => simp [extractSorted, flattenSorted]
    | cons c rest =>
      simp only [List.cons.sizeOf_spec] at hsz
      have := sizeOf_rnode_pos c
      omega
  | succ k ih =>
    intro ws depth acc hsz hlen
    cases ws with
    | nil => simp [extractSorted, flattenSorted]
    | cons c rest =>
      simp only [List.cons.sizeOf_spec] at hsz
      have hc1 := sizeOf_rnode_pos c
      have hcr := sizeOf_replies_lt c
      by_cases hstop : m ≤ acc.length
      · have hms : m - acc.length = 0 := by omega
        simp only [extractSorted, if_pos hstop, hms, List.take_zero, List.append_nil]
      · have hlt : acc.length < m := by omega
        by_cases hv : validNode c = true
        · simp only [extractSorted, if_neg hstop, if_pos hv, flattenSorted]
          have hlen1 : (acc ++ [mkComment p c depth]).length = acc.length + 1 := by
            simp
          by_cases hrec : (acc ++ [mkComment p c depth]).length < m
          · rw [if_pos hrec]
            rw [ih (sortDesc c.replies) (depth + 1) (acc ++ [mkComment p c depth])
              (by rw [sizeOf_sortDesc]; omega) (by omega)]
            have hlenB : ((acc ++ [mkComment p c depth]) ++
                (flattenSorted p (sortDesc c.replies) (depth + 1)).take
                  (m - (acc ++ [mkComment p c depth]).length)).length ≤ m := by
              simp only [List.length_append, List.length_take, hlen1]
              omega
            rw [ih rest depth ((acc ++ [mkComment p c depth]) ++
                (flattenSorted p (sortDesc c.replies) (depth + 1)).take
                  (m - (acc ++ [mkComment p c depth]).length))
              (by omega) hlenB]
            rw [show m - acc.length = (m - (acc ++ [mkComment p c depth]).length) + 1 by
              rw [hlen1]; omega]
            rw [List.take_succ_cons, List.take_append_eq_append_take]
            have hcount : m - ((acc ++ [mkComment p c depth]) ++
                (flattenSorted p (sortDesc c.replies) (depth + 1)).take
                  (m - (acc ++ [mkComment p c depth]).length)).length =
                (m - (acc ++ [mkComment p c depth]).length) -
                  (flattenSorted p (sortDesc c.replies) (depth + 1)).length := by
              simp only [List.length_append, List.length_take, hlen1]
              omega
            rw [hcount]
            simp [List.append_assoc]
          · rw [if_neg hrec]
            rw [ih rest depth (acc ++ [mkComment p c depth]) (by omega) (by omega)]
            have hone : m - (acc ++ [mkComment p c depth]).length = 0 := by
              rw [hlen1]; omega
            rw [hone]
            rw [show m - acc.length = 0 + 1 by rw [hlen1] at hrec; omega]
            rw [List.take_succ_cons, List.take_zero, List.take_zero]
            simp
        · simp only [extractSorted, if_neg hstop, if_neg hv, flattenSorted]
          exact ih rest depth acc (by omega) hlen

/-- **C8** For every comment tree, requested count `m` and post author:
the extracted list is the `m`-prefix of the untruncated depth-first
flattening (collection stops at `m`), so its length never exceeds `m`;
no extracted comment has a deleted (or missing) author; in the
flattening the comment of every valid node precedes the flattening of its
replies (parent before children) followed by its later siblings; and
sibling lists are processed as a permutation of themselves in descending
score order. -/
theorem reddit_extract_correct (p : String) (m : Nat) (children : List RNode) :
    extract p m children = (flatten p children).take m ∧
    (extract p m children).length ≤ m ∧
    (∀ cmt ∈ extract p m children, cmt.author ≠ "" ∧ cmt.author ≠ "[deleted]") ∧
    (∀ (c : RNode) (rest : List RNode) (depth : Nat), validNode c = true →
      flattenSorted p (c :: rest) depth =
        mkComment p c depth ::
          (flattenSorted p (sortDesc c.replies) (depth + 1) ++ flattenSorted p rest depth)) ∧
    (∀ l : List RNode,
      List.Pairwise (fun a b => b.score ≤ a.score) (sortDesc l) ∧
      List.Perm (sortDesc l) l) := by
  have htake : extract p m children = (flatten p children).take m := by
    unfold extract flatten
    rw [extractSorted_take p m (sizeOf (sortDesc children)) (sortDesc children) 0 []
      (le_refl _) (by simp)]
    simp
  refine ⟨htake, ?_, ?_, ?_, ?_⟩
  · rw [htake]
    simp [List.length_take]
  · intro cmt hmem
    rw [htake] at hmem
    have hmem2 : cmt ∈ flatten p children := List.take_subset m _ hmem
    exact flattenSorted_author p (sizeOf (sortDesc children)) (sortDesc children) 0 cmt
      (le_refl _) hmem2
  · intro c rest depth hv
    simp only [flattenSorted, if_pos hv]
  · intro l
    exact ⟨sortDesc_pairwise l, sortDesc_perm l⟩

/-- Concrete instance of `reddit_extract_correct`: a concrete valid
node has its comment heading the flattening of its subtree. -/
theorem reddit_extract_correct_witness :
    validNode (RNode.mk "t1" (some "bob") "high" 10 []) = true ∧
    flattenSorted "op" [RNode.mk "t1" (some "bob") "high" 10 []] 0 =
      mkComment "op" (RNode.mk "t1" (some "bob") "high" 10 []) 0 ::
        (flattenSorted "op"
            (sortDesc (RNode.mk "t1" (some "bob") "high" 10 []).replies) 1
          ++ flattenSorted "op" [] 0) :=
  ⟨by decide,
   (reddit_extract_correct "op" 2 []).2.2.2.1
     (RNode.mk "t1" (some "bob") "high" 10 []) [] 0 (by decide)⟩

end Powerpack
